/-
Verification of the training-orchestration core of maskrcnn-benchmark
(src/maskrcnn_benchmark/engine/trainer.py) against its specification.

Shallow embedding:
 * scalar tensor values are rationals extended with a NaN element (`Val`);
   the IEEE fact that `x != x` holds exactly for NaN is encoded in
   `Val.neSelf`;
 * a loss dictionary is an ordered list of (name, tensor) pairs; Python's
   `sorted(loss_dict.keys())` is modelled with `List.insertionSort` on keys;
 * the distributed collective `dist.reduce(all_losses, dst=0)` is modelled
   by giving the reduction function the loss dicts of all workers: rank 0
   receives the elementwise sum, other ranks keep their local buffer; the
   horovod backend (`hvd.allreduce(average=False)`) gives the sum to all;
 * the training loop (`do_train`) is explicit state passing over the data
   loader, producing a trace of observable events and an optional error;
   the checkpoint store is an oracle `saveOk : String → Bool` giving the
   success of a save per tag.
-/
import Mathlib

namespace Trainer

/-! ### Values: rationals extended with NaN -/

/-- A floating-point scalar, idealized as a rational or NaN. -/
inductive Val where
  | nan : Val
  | num (q : ℚ) : Val
deriving DecidableEq, Repr

/-- Addition; NaN propagates (IEEE semantics). -/
def Val.add : Val → Val → Val
  | .num a, .num b => .num (a + b)
  | _, _ => .nan

/-- Multiplication by an exact scalar; NaN propagates. -/
def Val.mulQ : Val → ℚ → Val
  | .num a, c => .num (a * c)
  | .nan, _ => .nan

/-- Division by a positive integer count; NaN propagates. -/
def Val.divNat : Val → Nat → Val
  | .num a, n => .num (a / (n : ℚ))
  | .nan, _ => .nan

/-- The Python test `losses != losses`: true exactly for NaN (IEEE). -/
def Val.neSelf : Val → Bool
  | .nan => true
  | .num _ => false

/-- Python `sum(...)` over a list of scalars (starts from integer 0). -/
def valSum (l : List Val) : Val :=
  l.foldl Val.add (.num 0)

/-- Sum of a list of values the way stacked tensors are reduced: fold of
pairwise addition starting from the first element (empty list gives 0). -/
def valSumList : List Val → Val
  | [] => .num 0
  | v :: t => t.foldl Val.add v

/-! ### Tensors and loss dictionaries -/

/-- A loss tensor: its rank (`.dim()` in torch) and its scalar value. -/
structure Tensor where
  dim : Nat
  val : Val
deriving DecidableEq, Repr

/-- Elementwise tensor addition (as in the stacked collective sum). -/
def Tensor.add (a b : Tensor) : Tensor := ⟨a.dim, a.val.add b.val⟩

/-- Tensor division by the worker count (`all_losses /= world_size`). -/
def Tensor.divNat (a : Tensor) (n : Nat) : Tensor := ⟨a.dim, a.val.divNat n⟩

/-- A loss dictionary: ordered mapping from component name to tensor. -/
abbrev LossDict := List (String × Tensor)

/-- Ordering of dict items by key, modelling `sorted(loss_dict.keys())`
followed by indexing the dict at each key. -/
def sortedItems (d : LossDict) : LossDict :=
  List.insertionSort (fun a b => a.1 ≤ b.1) d

/-- The dimensionality check of `reduce_loss_dict`: every value's rank must
equal the first one's (in sorted key order), else an exception is raised. -/
def localDimsOk (d : LossDict) : Bool :=
  match sortedItems d with
  | [] => true
  | h :: t => t.all (fun p => p.2.dim == h.2.dim)

/-- The values of a dict, stacked in sorted key order (`torch.stack`). -/
def stackedVals (d : LossDict) : List Tensor :=
  (sortedItems d).map (·.2)

/-- Elementwise sum of the workers' stacked buffers, as the collective
sum-reduction computes it. -/
def sumStacks : List (List Tensor) → List Tensor
  | [] => []
  | s :: rest => rest.foldl (fun acc t => List.zipWith Tensor.add acc t) s

/-- `reduce_loss_dict` from trainer.py, seen from one worker.

`world` is the list of all workers' loss dicts (its length is the world
size); the calling worker has rank `rank` and local dict `world[rank]`.
If the world size is below 2 the input is returned unchanged.  Otherwise
keys are sorted, ranks are checked for uniformity (mismatch raises), the
stacked values go through the collective (rank 0 gets the sum in the
standard backend; everyone does under horovod), and only rank 0 divides by
the world size. -/
def reduce_loss_dict (use_hvd : Bool) (world : List LossDict) (rank : Nat) :
    Except Unit LossDict :=
  let world_size := world.length
  let loss_dict := world.getD rank []
  if world_size < 2 then .ok loss_dict
  else
    let items := sortedItems loss_dict
    let loss_names := items.map (·.1)
    if localDimsOk loss_dict then
      let all_losses :=
        if use_hvd then sumStacks (world.map stackedVals)
        else if rank = 0 then sumStacks (world.map stackedVals)
        else items.map (·.2)
      let reduced :=
        if rank = 0 then all_losses.map (fun t => t.divNat world_size)
        else all_losses
      .ok (List.zip loss_names reduced)
    else .error ()

/-! ### Batches and partitioning -/

/-- The ImageList structure: a batched image tensor (modelled as the list
of its per-sample slices) plus per-sample size metadata. -/
structure ImageList (α σ : Type) where
  tensors : List α
  image_sizes : List σ
deriving DecidableEq, Repr

/-- `partition_data` from trainer.py: split a batch into `num` contiguous
groups of size `sample_count / num` each, pairing image and target slices;
a single group holding everything when `num = 1` or the batch is smaller
than `num`. -/
def partition_data {α σ τ : Type} (images : ImageList α σ) (targets : List τ)
    (num : Nat) : List (ImageList α σ × List τ) :=
  if num = 1 ∨ images.image_sizes.length < num then [(images, targets)]
  else
    let each := images.image_sizes.length / num
    (List.range num).map (fun i =>
      let start := i * each
      (⟨(images.tensors.drop start).take each,
        (images.image_sizes.drop start).take each⟩,
       (targets.drop start).take each))

/-! ### The training loop -/

/-- Observable events of one training run, in program order. -/
inductive Event where
  | emptySkipLog : Event
  | schedulerStep : Event
  | zeroGrad : Event
  | nanLog : Event
  | meterUpdate : Event
  | backward : Event
  | avgGrad : Event
  | optStep : Event
  | timeUpdate : Event
  | logLine : Event
  | saveAttempt (tag : String) (ok : Bool) : Event
deriving DecidableEq, Repr

/-- Exceptions that can unwind the training loop. -/
inductive TrainError where
  | nanEncountered : TrainError
  | saveFailed (tag : String) : TrainError
  | shapeMismatch : TrainError
deriving DecidableEq, Repr

/-- The mutable `arguments` record (RunState): the iteration counter, plus
the offending batch attached on a NaN divergence. -/
structure Arguments (α σ τ : Type) where
  iteration : Nat
  images : Option (ImageList α σ) := none
  targets : Option (List τ) := none
deriving DecidableEq, Repr

/-- Outcome of a piece of the loop: final RunState, emitted events, and an
optional exception that is propagating. -/
structure StepResult (α σ τ : Type) where
  args : Arguments α σ τ
  events : List Event
  err : Option TrainError
deriving DecidableEq, Repr

/-- Static configuration of one `do_train` run. -/
structure LoopConfig where
  checkpoint_period : Nat
  log_step : Nat := 20
  data_partition : Nat := 1
  explicit_average_grad : Bool := false
  no_update : Bool := false
  use_hvd : Bool := false
  rank : Nat := 0
  world_size : Nat := 1
deriving Repr

/-- The weighted total loss of one forward pass:
`sum(loss for loss in loss_dict.values()) * loss_scalar`. -/
def totalLoss (d : LossDict) (loss_scalar : ℚ) : Val :=
  (valSum (d.map (·.2.val))).mulQ loss_scalar

/-- The emergency-checkpoint tag `"NaN_context_{rank}"`. -/
def nanTag (rank : Nat) : String := "NaN_context_" ++ toString rank

/-- `forward_backward` from trainer.py.

Runs the model on one (sub-)batch; if the weighted total loss is NaN, the
batch is written into `arguments`, one `"NaN_context_{rank}"` checkpoint
save is attempted (unwrapped: its own failure propagates instead of the
`RuntimeError`), and an exception unwinds.  Otherwise the loss dict is
reduced for logging (which raises on rank mismatch when the standard
backend is active and the world size is at least 2), the meters are
updated, and — unless `no_update` — backward runs. -/
def forward_backward {α σ τ : Type}
    (modelFn : ImageList α σ → List τ → LossDict)
    (saveOk : String → Bool) (cfg : LoopConfig)
    (images : ImageList α σ) (targets : List τ)
    (arguments : Arguments α σ τ) : StepResult α σ τ :=
  let loss_dict := modelFn images targets
  let losses := totalLoss loss_dict (1 / (cfg.data_partition : ℚ))
  if losses.neSelf then
    let args' := { arguments with images := some images, targets := some targets }
    let tag := nanTag cfg.rank
    ⟨args', [.nanLog, .saveAttempt tag (saveOk tag)],
     some (if saveOk tag then .nanEncountered else .saveFailed tag)⟩
  else
    if !cfg.use_hvd && 2 ≤ cfg.world_size && !localDimsOk loss_dict then
      ⟨arguments, [], some .shapeMismatch⟩
    else
      ⟨arguments,
       .meterUpdate :: (if cfg.no_update then [] else [.backward]), none⟩

/-- Sequential `forward_backward` over the partitioned groups; the first
exception aborts the remaining groups. -/
def runGroups {α σ τ : Type}
    (modelFn : ImageList α σ → List τ → LossDict)
    (saveOk : String → Bool) (cfg : LoopConfig) :
    List (ImageList α σ × List τ) → Arguments α σ τ → StepResult α σ τ
  | [], args => ⟨args, [], none⟩
  | g :: rest, args =>
    let r := forward_backward modelFn saveOk cfg g.1 g.2 args
    match r.err with
    | some e => ⟨r.args, r.events, some e⟩
    | none =>
      let r2 := runGroups modelFn saveOk cfg rest r.args
      ⟨r2.args, r.events ++ r2.events, r2.err⟩

/-- The intermediate checkpoint tag `"model_{:07d}".format(iteration)`. -/
def intermediateTag (iteration : Nat) : String :=
  "model_" ++ String.mk (List.replicate (7 - (toString iteration).length) (Char.ofNat 48)) ++ toString iteration

/-- One cycle of the `do_train` loop body, at enumerate value `it` (the
effective iteration is `it + 1`).  An empty image collection only logs and
skips.  Otherwise: iteration counter update, scheduler step and gradient
zeroing (unless `no_update`), partitioned forward/backward, optional
explicit gradient averaging, optimizer step (unless `no_update`), timing
meters after the first 5 iterations, the logging cadence, and the
best-effort intermediate checkpoint every `checkpoint_period` iterations. -/
def runCycle {α σ τ : Type}
    (modelFn : ImageList α σ → List τ → LossDict)
    (saveOk : String → Bool) (cfg : LoopConfig)
    (max_iter start_iter : Nat) (it : Nat)
    (images : ImageList α σ) (targets : List τ)
    (args : Arguments α σ τ) : StepResult α σ τ :=
  if images.image_sizes.length = 0 then ⟨args, [.emptySkipLog], none⟩
  else
    let iteration := it + 1
    let args := { args with iteration := iteration }
    let pre : List Event :=
      (if cfg.no_update then [] else [.schedulerStep]) ++
      (if cfg.no_update then [] else [.zeroGrad])
    let groups := partition_data images targets cfg.data_partition
    let r := runGroups modelFn saveOk cfg groups args
    match r.err with
    | some e => ⟨r.args, pre ++ r.events, some e⟩
    | none =>
      let post : List Event :=
        (if cfg.explicit_average_grad then [.avgGrad] else []) ++
        (if cfg.no_update then [] else [.optStep]) ++
        (if start_iter + 5 < iteration then [.timeUpdate] else []) ++
        (if iteration % cfg.log_step = 0 ∨ iteration = max_iter then [.logLine] else []) ++
        (if iteration % cfg.checkpoint_period = 0 then
           [.saveAttempt (intermediateTag iteration) (saveOk (intermediateTag iteration))]
         else [])
      ⟨r.args, pre ++ r.events ++ post, none⟩

/-- The rank-suffixed forced final tag `"model_final_{rank}"`. -/
def finalRankTag (rank : Nat) : String := "model_final_" ++ toString rank

/-- Save events of the end-of-loop persistence: the unwrapped
`"model_final"` save, then — when it succeeded and the rank is not 0 — the
forced rank-suffixed final save. -/
def finalTailEvents (saveOk : String → Bool) (cfg : LoopConfig) : List Event :=
  if saveOk "model_final" then
    if cfg.rank = 0 then [.saveAttempt "model_final" true]
    else [.saveAttempt "model_final" true,
          .saveAttempt (finalRankTag cfg.rank) (saveOk (finalRankTag cfg.rank))]
  else [.saveAttempt "model_final" false]

/-- The exception propagating out of the end-of-loop persistence: both
final saves are unwrapped, so either failure is fatal. -/
def finalTailErr (saveOk : String → Bool) (cfg : LoopConfig) : Option TrainError :=
  if saveOk "model_final" then
    if cfg.rank = 0 then none
    else if saveOk (finalRankTag cfg.rank) then none
    else some (.saveFailed (finalRankTag cfg.rank))
  else some (.saveFailed "model_final")

/-- End-of-loop persistence: the unwrapped `"model_final"` save (failure
propagates), then for non-coordinator ranks a forced rank-suffixed final
save (also unwrapped). -/
def finalSaves {α σ τ : Type} (saveOk : String → Bool) (cfg : LoopConfig)
    (args : Arguments α σ τ) : StepResult α σ τ :=
  ⟨args, finalTailEvents saveOk cfg, finalTailErr saveOk cfg⟩

/-- The enumerate-driven loop over the remaining data, then the final
saves; a propagating exception aborts everything after it. -/
def runLoop {α σ τ : Type}
    (modelFn : ImageList α σ → List τ → LossDict)
    (saveOk : String → Bool) (cfg : LoopConfig)
    (max_iter start_iter : Nat) :
    List (ImageList α σ × List τ) → Nat → Arguments α σ τ → StepResult α σ τ
  | [], _, args => finalSaves saveOk cfg args
  | b :: rest, it, args =>
    let r := runCycle modelFn saveOk cfg max_iter start_iter it b.1 b.2 args
    match r.err with
    | some e => ⟨r.args, r.events, some e⟩
    | none =>
      let r2 := runLoop modelFn saveOk cfg max_iter start_iter rest (it + 1) r.args
      ⟨r2.args, r.events ++ r2.events, r2.err⟩

/-- `do_train` from trainer.py: `max_iter = len(data_loader)`, the
enumerate starts at `arguments["iteration"]`, and the loop runs to
completion unless an exception propagates. -/
def do_train {α σ τ : Type}
    (modelFn : ImageList α σ → List τ → LossDict)
    (saveOk : String → Bool) (cfg : LoopConfig)
    (data_loader : List (ImageList α σ × List τ))
    (args0 : Arguments α σ τ) : StepResult α σ τ :=
  runLoop modelFn saveOk cfg data_loader.length args0.iteration
    data_loader args0.iteration args0

/-- The (tag, success) pairs of the checkpoint-save attempts in a trace. -/
def saveEvents (l : List Event) : List (String × Bool) :=
  l.filterMap (fun e => match e with
    | .saveAttempt t b => some (t, b)
    | _ => none)

/-- The events that only happen when parameter updates are enabled:
scheduler step, gradient zeroing, backward, optimizer step. -/
def isUpdateEvent : Event → Bool
  | .schedulerStep => true
  | .zeroGrad => true
  | .backward => true
  | .optStep => true
  | _ => false

/-! ### ETA formatting -/

/-- `"%02d"`: decimal rendering zero-padded to two digits. -/
def pad2 (n : Nat) : String :=
  if n < 10 then "0" ++ toString n else toString n

/-- `str(datetime.timedelta(seconds=t))` for a non-negative whole number
of seconds: `"%d:%02d:%02d" % (hh, mm, ss)`, prefixed by `"%d day(s), "`
when the duration reaches a full day. -/
def timedeltaStr (t : Nat) : String :=
  let days := t / 86400
  let rem := t % 86400
  let core := toString (rem / 3600) ++ ":" ++ pad2 (rem % 3600 / 60) ++ ":" ++ pad2 (rem % 60)
  if days = 0 then core
  else toString days ++ (if days = 1 then " day, " else " days, ") ++ core

/-- Modelled from the spec: the claimed rendering of a duration as
zero-padded `HH:MM:SS` (every field two digits, hours included). -/
def specHHMMSS (t : Nat) : String :=
  pad2 (t / 3600) ++ ":" ++ pad2 (t % 3600 / 60) ++ ":" ++ pad2 (t % 60)

/-! ## Theorems -/

/-- If the dimensionality check passes, every two values of the dict share
the same rank. -/
theorem dims_uniform_of_localDimsOk {d : LossDict} (h : localDimsOk d = true) :
    ∀ p ∈ d, ∀ q ∈ d, p.2.dim = q.2.dim := by
  intro p hp q hq
  have hperm := List.perm_insertionSort (fun a b : String × Tensor => a.1 ≤ b.1) d
  have hp' : p ∈ sortedItems d := hperm.mem_iff.mpr hp
  have hq' : q ∈ sortedItems d := hperm.mem_iff.mpr hq
  unfold localDimsOk at h
  cases hs : sortedItems d with
  | nil => rw [hs] at hp'; exact absurd hp' (List.not_mem_nil p)
  | cons a t =>
    rw [hs] at h hp' hq'
    simp only [List.all_eq_true, beq_iff_eq] at h
    have hval : ∀ x ∈ a :: t, x.2.dim = a.2.dim := by
      intro x hx
      rcases List.mem_cons.mp hx with hxa | hxt
      · rw [hxa]
      · exact h x hxt
    rw [hval p hp', hval q hq']

/-- C8: reduction with a single worker returns the input loss mapping
unchanged (the reduction is the identity function). -/
theorem C8_reduce_identity (u : Bool) (d : LossDict) :
    reduce_loss_dict u [d] 0 = .ok d := rfl

/-- C4: reduction of a loss mapping whose values do not all share the same
tensor rank, with more than one worker, raises and returns no partial
result. -/
theorem C4_shape_mismatch_raises (u : Bool) (world : List LossDict) (rank : Nat)
    (hN : 2 ≤ world.length)
    (hmix : ∃ p ∈ world.getD rank [], ∃ q ∈ world.getD rank [], p.2.dim ≠ q.2.dim) :
    reduce_loss_dict u world rank = .error () := by
  obtain ⟨p, hp, q, hq, hne⟩ := hmix
  have hdims : localDimsOk (world.getD rank []) = false := by
    cases hc : localDimsOk (world.getD rank []) with
    | false => rfl
    | true => exact absurd (dims_uniform_of_localDimsOk hc p hp q hq) hne
  unfold reduce_loss_dict
  rw [if_neg (by omega)]
  simp only [hdims]
  rfl

/-- C4 witness: a two-worker world whose local mapping mixes a rank-0 and a
rank-1 tensor is rejected. -/
theorem C4_shape_mismatch_raises_witness :
    reduce_loss_dict false
      [[("a", ⟨0, .num 1⟩), ("b", ⟨1, .num 2⟩)],
       [("a", ⟨0, .num 3⟩), ("b", ⟨1, .num 4⟩)]] 0 = .error () :=
  C4_shape_mismatch_raises false _ 0 (by decide) (by decide)

/-- C7: partitioning with one group, or with fewer samples than groups,
returns a single partition equal to the whole batch. -/
theorem C7_partition_small {α σ τ : Type} (images : ImageList α σ)
    (targets : List τ) (n : Nat)
    (h : n = 1 ∨ images.image_sizes.length < n) :
    partition_data images targets n = [(images, targets)] := by
  unfold partition_data
  rw [if_pos h]

/-- C7 witness at a concrete batch with `n = 1`. -/
theorem C7_partition_small_witness :
    partition_data (⟨[10, 20], [1, 2]⟩ : ImageList Nat Nat) [5, 6] 1
      = [(⟨[10, 20], [1, 2]⟩, [5, 6])] :=
  C7_partition_small ⟨[10, 20], [1, 2]⟩ [5, 6] 1 (Or.inl rfl)

/-- C6: a cycle whose fetched image collection is empty only logs and
skips: the RunState is unchanged, no scheduler step, gradient zeroing,
forward/backward, optimizer step or metric update happens, and no error is
raised. -/
theorem C6_empty_batch_skips {α σ τ : Type}
    (modelFn : ImageList α σ → List τ → LossDict) (saveOk : String → Bool)
    (cfg : LoopConfig) (max_iter start_iter it : Nat)
    (images : ImageList α σ) (targets : List τ) (args : Arguments α σ τ)
    (h : images.image_sizes = []) :
    runCycle modelFn saveOk cfg max_iter start_iter it images targets args
      = ⟨args, [.emptySkipLog], none⟩ := by
  unfold runCycle
  rw [if_pos (by rw [h]; rfl)]

/-- C6 witness at a concrete empty batch. -/
theorem C6_empty_batch_skips_witness :
    runCycle (fun (_ : ImageList Nat Nat) (_ : List Nat) => [("loss", ⟨0, .num 1⟩)])
      (fun _ => true) { checkpoint_period := 1 } 4 0 2 ⟨[], []⟩ [] ⟨0, none, none⟩
      = ⟨⟨0, none, none⟩, [.emptySkipLog], none⟩ :=
  C6_empty_batch_skips _ _ _ 4 0 2 ⟨[], []⟩ [] ⟨0, none, none⟩ rfl

/-- C9 counterexample: at a 5-second duration the code renders `0:00:05`
— the hours field is not zero-padded — while the claimed format is
`00:00:05`. -/
theorem C9_counterexample : ¬ (timedeltaStr 5 = specHHMMSS 5) := by decide

/-- C9 amended: a non-negative duration is rendered with unpadded hours
and two-digit zero-padded minutes and seconds (`H:MM:SS`), prefixed by a
day count once the duration reaches 24 hours; the rendered fields are the
canonical sexagesimal decomposition of the duration. -/
theorem C9_eta_format (t : Nat) :
    ∃ days h m s, t = 86400 * days + 3600 * h + 60 * m + s ∧
      h < 24 ∧ m < 60 ∧ s < 60 ∧
      timedeltaStr t =
        (if days = 0 then ""
         else toString days ++ (if days = 1 then " day, " else " days, "))
          ++ toString h ++ ":" ++ pad2 m ++ ":" ++ pad2 s := by
  refine ⟨t / 86400, t % 86400 / 3600, t % 86400 % 3600 / 60, t % 86400 % 60,
    by omega, by omega, by omega, by omega, ?_⟩
  unfold timedeltaStr
  by_cases hd : t / 86400 = 0
  · rw [if_pos hd, if_pos hd]
    rfl
  · rw [if_neg hd, if_neg hd]
    simp only [String.append_assoc]

/-- Concatenating the `n` contiguous slices of width `e` recovers the
first `n * e` elements. -/
theorem flatten_slices {β : Type} (e : Nat) (l : List β) :
    ∀ n : Nat,
      ((List.range n).map (fun i => (l.drop (i * e)).take e)).flatten
        = l.take (n * e)
  | 0 => by simp
  | n + 1 => by
    rw [List.range_succ, List.map_append, List.flatten_append,
      flatten_slices e l n]
    simp only [List.map_cons, List.map_nil, List.flatten_cons,
      List.flatten_nil, List.append_nil, Nat.succ_mul, List.take_add]

/-- C3: partitioning a batch of `s` samples into `n > 1` groups with
`s ≥ n` yields exactly `n` contiguous groups of `s / n` samples each, in
original order, pairing the image and target slices, and the trailing
`s - (s / n) * n` samples appear in no group. -/
theorem C3_partition_general {α σ τ : Type} (images : ImageList α σ)
    (targets : List τ) (n : Nat)
    (hn : 1 < n) (hs : n ≤ images.image_sizes.length)
    (hti : images.tensors.length = images.image_sizes.length)
    (hta : targets.length = images.image_sizes.length) :
    (partition_data images targets n).length = n ∧
    (∀ i, i < n →
      (partition_data images targets n)[i]? = some
        (⟨(images.tensors.drop (i * (images.image_sizes.length / n))).take
            (images.image_sizes.length / n),
          (images.image_sizes.drop (i * (images.image_sizes.length / n))).take
            (images.image_sizes.length / n)⟩,
         (targets.drop (i * (images.image_sizes.length / n))).take
            (images.image_sizes.length / n))) ∧
    (∀ g ∈ partition_data images targets n,
      g.1.tensors.length = images.image_sizes.length / n ∧
      g.1.image_sizes.length = images.image_sizes.length / n ∧
      g.2.length = images.image_sizes.length / n) ∧
    ((partition_data images targets n).map (fun g => g.1.tensors)).flatten
        = images.tensors.take (n * (images.image_sizes.length / n)) ∧
    ((partition_data images targets n).map (fun g => g.1.image_sizes)).flatten
        = images.image_sizes.take (n * (images.image_sizes.length / n)) ∧
    ((partition_data images targets n).map (fun g => g.2)).flatten
        = targets.take (n * (images.image_sizes.length / n)) := by
  have hcond : ¬ (n = 1 ∨ images.image_sizes.length < n) := by omega
  have hpart : partition_data images targets n =
      (List.range n).map (fun i =>
        let start := i * (images.image_sizes.length / n)
        (⟨(images.tensors.drop start).take (images.image_sizes.length / n),
          (images.image_sizes.drop start).take (images.image_sizes.length / n)⟩,
         (targets.drop start).take (images.image_sizes.length / n))) := by
    unfold partition_data
    rw [if_neg hcond]
  have hslice : ∀ i, i < n →
      i * (images.image_sizes.length / n) + images.image_sizes.length / n
        ≤ images.image_sizes.length := by
    intro i hi
    calc i * (images.image_sizes.length / n) + images.image_sizes.length / n
        = (i + 1) * (images.image_sizes.length / n) := by ring
      _ ≤ n * (images.image_sizes.length / n) :=
          Nat.mul_le_mul_right _ (by omega)
      _ = images.image_sizes.length / n * n := Nat.mul_comm ..
      _ ≤ images.image_sizes.length := Nat.div_mul_le_self ..
  refine ⟨?_, ?_, ?_, ?_, ?_, ?_⟩
  · rw [hpart]; simp
  · intro i hi
    rw [hpart, List.getElem?_map, List.getElem?_range hi]
    rfl
  · intro g hg
    rw [hpart] at hg
    obtain ⟨i, hi, hgi⟩ := List.mem_map.mp hg
    have hi' : i < n := List.mem_range.mp hi
    have hb := hslice i hi'
    subst hgi
    refine ⟨?_, ?_, ?_⟩ <;>
      simp only [List.length_take, List.length_drop, hti, hta] <;> omega
  · rw [hpart, List.map_map]
    exact flatten_slices _ images.tensors n
  · rw [hpart, List.map_map]
    exact flatten_slices _ images.image_sizes n
  · rw [hpart, List.map_map]
    exact flatten_slices _ targets n

/-- C3 witness: the documented boundary instance `s = 10, n = 3` — three
groups of three samples, one sample dropped. -/
theorem C3_partition_general_witness :
    (partition_data (⟨List.range 10, List.range 10⟩ : ImageList Nat Nat)
        (List.range 10) 3).length = 3 ∧
    (∀ i, i < 3 →
      (partition_data (⟨List.range 10, List.range 10⟩ : ImageList Nat Nat)
          (List.range 10) 3)[i]? = some
        (⟨((List.range 10).drop (i * ((List.range 10 : List Nat).length / 3))).take
            ((List.range 10 : List Nat).length / 3),
          ((List.range 10).drop (i * ((List.range 10 : List Nat).length / 3))).take
            ((List.range 10 : List Nat).length / 3)⟩,
         ((List.range 10).drop (i * ((List.range 10 : List Nat).length / 3))).take
            ((List.range 10 : List Nat).length / 3))) ∧
    (∀ g ∈ partition_data (⟨List.range 10, List.range 10⟩ : ImageList Nat Nat)
        (List.range 10) 3,
      g.1.tensors.length = (List.range 10 : List Nat).length / 3 ∧
      g.1.image_sizes.length = (List.range 10 : List Nat).length / 3 ∧
      g.2.length = (List.range 10 : List Nat).length / 3) ∧
    ((partition_data (⟨List.range 10, List.range 10⟩ : ImageList Nat Nat)
        (List.range 10) 3).map (fun g => g.1.tensors)).flatten
      = (List.range 10).take (3 * ((List.range 10 : List Nat).length / 3)) ∧
    ((partition_data (⟨List.range 10, List.range 10⟩ : ImageList Nat Nat)
        (List.range 10) 3).map (fun g => g.1.image_sizes)).flatten
      = (List.range 10).take (3 * ((List.range 10 : List Nat).length / 3)) ∧
    ((partition_data (⟨List.range 10, List.range 10⟩ : ImageList Nat Nat)
        (List.range 10) 3).map (fun g => g.2)).flatten
      = (List.range 10).take (3 * ((List.range 10 : List Nat).length / 3)) :=
  C3_partition_general ⟨List.range 10, List.range 10⟩ (List.range 10) 3
    (by decide) (by decide) rfl rfl

/-- No forward/backward invocation ever emits an optimizer-step event. -/
theorem optStep_not_mem_runGroups {α σ τ : Type}
    (modelFn : ImageList α σ → List τ → LossDict) (saveOk : String → Bool)
    (cfg : LoopConfig) :
    ∀ (gs : List (ImageList α σ × List τ)) (args : Arguments α σ τ),
      Event.optStep ∉ (runGroups modelFn saveOk cfg gs args).events
  | [], args => by simp [runGroups]
  | g :: rest, args => by
    have hfb : Event.optStep ∉
        (forward_backward modelFn saveOk cfg g.1 g.2 args).events := by
      unfold forward_backward
      by_cases h1 : (totalLoss (modelFn g.1 g.2)
          (1 / (cfg.data_partition : ℚ))).neSelf = true
      · rw [if_pos h1]; simp
      · rw [if_neg h1]
        by_cases h2 : (!cfg.use_hvd && decide (2 ≤ cfg.world_size)
            && !localDimsOk (modelFn g.1 g.2)) = true
        · rw [if_pos h2]; simp
        · rw [if_neg h2]
          cases hnu : cfg.no_update <;> simp [hnu]
    have hrec := optStep_not_mem_runGroups modelFn saveOk cfg rest
      (forward_backward modelFn saveOk cfg g.1 g.2 args).args
    unfold runGroups
    cases hr : (forward_backward modelFn saveOk cfg g.1 g.2 args).err with
    | some e =>
      simp only [hr]
      exact hfb
    | none =>
      simp only [hr, List.mem_append]
      rintro (h | h)
      · exact hfb h
      · exact hrec h

/-- C1: when the weighted total loss is NaN, the forward/backward step
attaches the current batch to the RunState, attempts exactly one emergency
checkpoint tagged with the worker's rank, and raises a fatal error whether
or not that save succeeds (its failure only changes which error
propagates); no backward happens, and a cycle whose forward/backward
raised never reaches the optimizer step. -/
theorem C1_nan_fatal :
    (∀ (α σ τ : Type) (modelFn : ImageList α σ → List τ → LossDict)
        (saveOk : String → Bool) (cfg : LoopConfig) (images : ImageList α σ)
        (targets : List τ) (args : Arguments α σ τ),
      (totalLoss (modelFn images targets) (1 / (cfg.data_partition : ℚ))).neSelf = true →
      ((forward_backward modelFn saveOk cfg images targets args).args.images
          = some images ∧
       (forward_backward modelFn saveOk cfg images targets args).args.targets
          = some targets) ∧
      saveEvents (forward_backward modelFn saveOk cfg images targets args).events
        = [(nanTag cfg.rank, saveOk (nanTag cfg.rank))] ∧
      (forward_backward modelFn saveOk cfg images targets args).err
        = some (if saveOk (nanTag cfg.rank) then .nanEncountered
                else .saveFailed (nanTag cfg.rank)) ∧
      Event.backward ∉ (forward_backward modelFn saveOk cfg images targets args).events) ∧
    (∀ (α σ τ : Type) (modelFn : ImageList α σ → List τ → LossDict)
        (saveOk : String → Bool) (cfg : LoopConfig) (max_iter start_iter it : Nat)
        (images : ImageList α σ) (targets : List τ) (args : Arguments α σ τ),
      (runCycle modelFn saveOk cfg max_iter start_iter it images targets args).err.isSome →
      Event.optStep ∉
        (runCycle modelFn saveOk cfg max_iter start_iter it images targets args).events) := by
  constructor
  · intro α σ τ modelFn saveOk cfg images targets args h
    unfold forward_backward
    rw [if_pos h]
    simp [saveEvents]
  · intro α σ τ modelFn saveOk cfg max_iter start_iter it images targets args h
    unfold runCycle at h ⊢
    by_cases he : images.image_sizes.length = 0
    · rw [if_pos he] at h
      simp at h
    · rw [if_neg he] at h ⊢
      have hng := optStep_not_mem_runGroups modelFn saveOk cfg
        (partition_data images targets cfg.data_partition)
        { args with iteration := it + 1 }
      cases hr : (runGroups modelFn saveOk cfg
          (partition_data images targets cfg.data_partition)
          { args with iteration := it + 1 }).err with
      | some e =>
        simp only [hr, List.mem_append]
        rintro (hp | hp)
        · revert hp
          split <;> simp
        · exact hng hp
      | none =>
        simp [hr] at h

/-- C1 witness: a concrete divergent batch. -/
theorem C1_nan_fatal_witness :
    (((forward_backward
          (fun (_ : ImageList Nat Nat) (_ : List Nat) => [("loss", ⟨0, .nan⟩)])
          (fun _ => true) { checkpoint_period := 1 } ⟨[7], [7]⟩ [7]
          ⟨0, none, none⟩).args.images = some ⟨[7], [7]⟩ ∧
      (forward_backward
          (fun (_ : ImageList Nat Nat) (_ : List Nat) => [("loss", ⟨0, .nan⟩)])
          (fun _ => true) { checkpoint_period := 1 } ⟨[7], [7]⟩ [7]
          ⟨0, none, none⟩).args.targets = some [7]) ∧
     saveEvents (forward_backward
          (fun (_ : ImageList Nat Nat) (_ : List Nat) => [("loss", ⟨0, .nan⟩)])
          (fun _ => true) { checkpoint_period := 1 } ⟨[7], [7]⟩ [7]
          ⟨0, none, none⟩).events = [("NaN_context_0", true)] ∧
     (forward_backward
          (fun (_ : ImageList Nat Nat) (_ : List Nat) => [("loss", ⟨0, .nan⟩)])
          (fun _ => true) { checkpoint_period := 1 } ⟨[7], [7]⟩ [7]
          ⟨0, none, none⟩).err = some .nanEncountered ∧
     Event.backward ∉ (forward_backward
          (fun (_ : ImageList Nat Nat) (_ : List Nat) => [("loss", ⟨0, .nan⟩)])
          (fun _ => true) { checkpoint_period := 1 } ⟨[7], [7]⟩ [7]
          ⟨0, none, none⟩).events) ∧
    Event.optStep ∉ (runCycle
        (fun (_ : ImageList Nat Nat) (_ : List Nat) => [("loss", ⟨0, .nan⟩)])
        (fun _ => true) { checkpoint_period := 1 } 4 0 2 ⟨[7], [7]⟩ [7]
        ⟨0, none, none⟩).events :=
  ⟨C1_nan_fatal.1 Nat Nat Nat _ _ _ _ _ _ rfl,
   C1_nan_fatal.2 Nat Nat Nat _ _ _ 4 0 2 _ _ _ rfl⟩

@[simp] theorem isUpdateEvent_emptySkipLog : isUpdateEvent .emptySkipLog = false := rfl

@[simp] theorem isUpdateEvent_schedulerStep : isUpdateEvent .schedulerStep = true := rfl

@[simp] theorem isUpdateEvent_zeroGrad : isUpdateEvent .zeroGrad = true := rfl

@[simp] theorem isUpdateEvent_nanLog : isUpdateEvent .nanLog = false := rfl

@[simp] theorem isUpdateEvent_meterUpdate : isUpdateEvent .meterUpdate = false := rfl

@[simp] theorem isUpdateEvent_backward : isUpdateEvent .backward = true := rfl

@[simp] theorem isUpdateEvent_avgGrad : isUpdateEvent .avgGrad = false := rfl

@[simp] theorem isUpdateEvent_optStep : isUpdateEvent .optStep = true := rfl

@[simp] theorem isUpdateEvent_timeUpdate : isUpdateEvent .timeUpdate = false := rfl

@[simp] theorem isUpdateEvent_logLine : isUpdateEvent .logLine = false := rfl

@[simp] theorem isUpdateEvent_saveAttempt (t : String) (b : Bool) :
    isUpdateEvent (.saveAttempt t b) = false := rfl

/-- Frame lemma for one forward/backward invocation: disabling updates
changes nothing except that the backward event disappears. -/
theorem fb_frame {α σ τ : Type} (modelFn : ImageList α σ → List τ → LossDict)
    (saveOk : String → Bool) (P L D : Nat) (G H : Bool) (R W : Nat)
    (images : ImageList α σ) (targets : List τ) (args : Arguments α σ τ) :
    (forward_backward modelFn saveOk ⟨P, L, D, G, true, H, R, W⟩ images targets args).args
      = (forward_backward modelFn saveOk ⟨P, L, D, G, false, H, R, W⟩ images targets args).args ∧
    (forward_backward modelFn saveOk ⟨P, L, D, G, true, H, R, W⟩ images targets args).err
      = (forward_backward modelFn saveOk ⟨P, L, D, G, false, H, R, W⟩ images targets args).err ∧
    (forward_backward modelFn saveOk ⟨P, L, D, G, true, H, R, W⟩ images targets args).events
      = (forward_backward modelFn saveOk ⟨P, L, D, G, false, H, R, W⟩ images targets args).events.filter
          (fun e => !isUpdateEvent e) := by
  unfold forward_backward
  dsimp only
  by_cases h1 : (totalLoss (modelFn images targets) (1 / (D : ℚ))).neSelf = true
  · rw [if_pos h1, if_pos h1]
    simp [isUpdateEvent]
  · rw [if_neg h1, if_neg h1]
    by_cases h2 : (!H && decide (2 ≤ W) && !localDimsOk (modelFn images targets)) = true
    · rw [if_pos h2, if_pos h2]
      simp
    · rw [if_neg h2, if_neg h2]
      simp [isUpdateEvent]

/-- Frame lemma for the partitioned forward/backward sequence. -/
theorem runGroups_frame {α σ τ : Type}
    (modelFn : ImageList α σ → List τ → LossDict) (saveOk : String → Bool)
    (P L D : Nat) (G H : Bool) (R W : Nat) :
    ∀ (gs : List (ImageList α σ × List τ)) (args : Arguments α σ τ),
      (runGroups modelFn saveOk ⟨P, L, D, G, true, H, R, W⟩ gs args).args
        = (runGroups modelFn saveOk ⟨P, L, D, G, false, H, R, W⟩ gs args).args ∧
      (runGroups modelFn saveOk ⟨P, L, D, G, true, H, R, W⟩ gs args).err
        = (runGroups modelFn saveOk ⟨P, L, D, G, false, H, R, W⟩ gs args).err ∧
      (runGroups modelFn saveOk ⟨P, L, D, G, true, H, R, W⟩ gs args).events
        = (runGroups modelFn saveOk ⟨P, L, D, G, false, H, R, W⟩ gs args).events.filter
            (fun e => !isUpdateEvent e)
  | [], args => by simp [runGroups]
  | g :: rest, args => by
    obtain ⟨ha, he, hv⟩ := fb_frame modelFn saveOk P L D G H R W g.1 g.2 args
    obtain ⟨ha2, he2, hv2⟩ := runGroups_frame modelFn saveOk P L D G H R W rest
      (forward_backward modelFn saveOk ⟨P, L, D, G, false, H, R, W⟩ g.1 g.2 args).args
    unfold runGroups
    cases hr : (forward_backward modelFn saveOk ⟨P, L, D, G, false, H, R, W⟩ g.1 g.2 args).err with
    | some e =>
      rw [hr] at he
      refine ⟨?_, ?_, ?_⟩
      · simp only [hr, he]; exact ha
      · simp [hr, he]
      · simp only [hr, he]; exact hv
    | none =>
      rw [hr] at he
      refine ⟨?_, ?_, ?_⟩
      · simp only [hr, he, ha]; exact ha2
      · simp only [hr, he, ha]; exact he2
      · simp only [hr, he, ha]
        rw [List.filter_append, hv, hv2]

/-- Frame lemma for one loop cycle. -/
theorem runCycle_frame {α σ τ : Type}
    (modelFn : ImageList α σ → List τ → LossDict) (saveOk : String → Bool)
    (P L D : Nat) (G H : Bool) (R W : Nat) (max_iter start_iter it : Nat)
    (images : ImageList α σ) (targets : List τ) (args : Arguments α σ τ) :
    (runCycle modelFn saveOk ⟨P, L, D, G, true, H, R, W⟩ max_iter start_iter it images targets args).args
      = (runCycle modelFn saveOk ⟨P, L, D, G, false, H, R, W⟩ max_iter start_iter it images targets args).args ∧
    (runCycle modelFn saveOk ⟨P, L, D, G, true, H, R, W⟩ max_iter start_iter it images targets args).err
      = (runCycle modelFn saveOk ⟨P, L, D, G, false, H, R, W⟩ max_iter start_iter it images targets args).err ∧
    (runCycle modelFn saveOk ⟨P, L, D, G, true, H, R, W⟩ max_iter start_iter it images targets args).events
      = (runCycle modelFn saveOk ⟨P, L, D, G, false, H, R, W⟩ max_iter start_iter it images targets args).events.filter
          (fun e => !isUpdateEvent e) := by
  unfold runCycle
  by_cases he : images.image_sizes.length = 0
  · rw [if_pos he, if_pos he]
    simp [isUpdateEvent]
  · rw [if_neg he, if_neg he]
    obtain ⟨ha, herr, hv⟩ := runGroups_frame modelFn saveOk P L D G H R W
      (partition_data images targets D) { args with iteration := it + 1 }
    dsimp only
    cases hr : (runGroups modelFn saveOk ⟨P, L, D, G, false, H, R, W⟩
        (partition_data images targets D) { args with iteration := it + 1 }).err with
    | some e =>
      rw [hr] at herr
      refine ⟨?_, ?_, ?_⟩
      · simp only [hr, herr]; exact ha
      · simp [hr, herr]
      · simp only [hr, herr]
        rw [List.filter_append, ← hv]
        simp
    | none =>
      rw [hr] at herr
      refine ⟨?_, ?_, ?_⟩
      · simp only [hr, herr]; exact ha
      · simp [hr, herr]
      · simp only [hr, herr]
        rw [List.filter_append, List.filter_append, ← hv]
        simp [apply_ite (List.filter (fun e => !isUpdateEvent e))]

/-- Frame lemma for the whole loop including the final saves. -/
theorem runLoop_frame {α σ τ : Type}
    (modelFn : ImageList α σ → List τ → LossDict) (saveOk : String → Bool)
    (P L D : Nat) (G H : Bool) (R W : Nat) (max_iter start_iter : Nat) :
    ∀ (l : List (ImageList α σ × List τ)) (it : Nat) (args : Arguments α σ τ),
      (runLoop modelFn saveOk ⟨P, L, D, G, true, H, R, W⟩ max_iter start_iter l it args).args
        = (runLoop modelFn saveOk ⟨P, L, D, G, false, H, R, W⟩ max_iter start_iter l it args).args ∧
      (runLoop modelFn saveOk ⟨P, L, D, G, true, H, R, W⟩ max_iter start_iter l it args).err
        = (runLoop modelFn saveOk ⟨P, L, D, G, false, H, R, W⟩ max_iter start_iter l it args).err ∧
      (runLoop modelFn saveOk ⟨P, L, D, G, true, H, R, W⟩ max_iter start_iter l it args).events
        = (runLoop modelFn saveOk ⟨P, L, D, G, false, H, R, W⟩ max_iter start_iter l it args).events.filter
            (fun e => !isUpdateEvent e)
  | [], it, args => by
    refine ⟨rfl, rfl, ?_⟩
    show finalTailEvents saveOk _ = (finalTailEvents saveOk _).filter _
    unfold finalTailEvents
    split_ifs <;> simp [isUpdateEvent]
  | b :: rest, it, args => by
    obtain ⟨ha, herr, hv⟩ := runCycle_frame modelFn saveOk P L D G H R W
      max_iter start_iter it b.1 b.2 args
    obtain ⟨ha2, he2, hv2⟩ := runLoop_frame modelFn saveOk P L D G H R W
      max_iter start_iter rest (it + 1)
      (runCycle modelFn saveOk ⟨P, L, D, G, false, H, R, W⟩ max_iter start_iter it b.1 b.2 args).args
    unfold runLoop
    cases hr : (runCycle modelFn saveOk ⟨P, L, D, G, false, H, R, W⟩
        max_iter start_iter it b.1 b.2 args).err with
    | some e =>
      rw [hr] at herr
      refine ⟨?_, ?_, ?_⟩
      · simp only [hr, herr]; exact ha
      · simp [hr, herr]
      · simp only [hr, herr]; exact hv
    | none =>
      rw [hr] at herr
      refine ⟨?_, ?_, ?_⟩
      · simp only [hr, herr, ha]; exact ha2
      · simp only [hr, herr, ha]; exact he2
      · simp only [hr, herr, ha]
        rw [List.filter_append, hv, hv2]

/-- C10: running the loop in no-update (dry-run) mode still advances the
RunState, updates the meters, attempts and writes the same checkpoints,
and fails identically; the trace differs exactly by dropping the scheduler
steps, gradient zeroings, backward passes and optimizer steps. -/
theorem C10_no_update_frame {α σ τ : Type}
    (modelFn : ImageList α σ → List τ → LossDict) (saveOk : String → Bool)
    (cfg : LoopConfig) (data_loader : List (ImageList α σ × List τ))
    (args0 : Arguments α σ τ) :
    (do_train modelFn saveOk { cfg with no_update := true } data_loader args0).args
      = (do_train modelFn saveOk { cfg with no_update := false } data_loader args0).args ∧
    (do_train modelFn saveOk { cfg with no_update := true } data_loader args0).err
      = (do_train modelFn saveOk { cfg with no_update := false } data_loader args0).err ∧
    (do_train modelFn saveOk { cfg with no_update := true } data_loader args0).events
      = (do_train modelFn saveOk { cfg with no_update := false } data_loader args0).events.filter
          (fun e => !isUpdateEvent e) := by
  obtain ⟨P, L, D, G, N, H, R, W⟩ := cfg
  exact runLoop_frame modelFn saveOk P L D G H R W data_loader.length args0.iteration
    data_loader args0.iteration args0

@[simp] theorem saveEvents_nil : saveEvents [] = [] := rfl

@[simp] theorem saveEvents_append (a b : List Event) :
    saveEvents (a ++ b) = saveEvents a ++ saveEvents b :=
  List.filterMap_append a b _

@[simp] theorem saveEvents_cons_emptySkipLog (l : List Event) :
    saveEvents (.emptySkipLog :: l) = saveEvents l := rfl

@[simp] theorem saveEvents_cons_schedulerStep (l : List Event) :
    saveEvents (.schedulerStep :: l) = saveEvents l := rfl

@[simp] theorem saveEvents_cons_zeroGrad (l : List Event) :
    saveEvents (.zeroGrad :: l) = saveEvents l := rfl

@[simp] theorem saveEvents_cons_nanLog (l : List Event) :
    saveEvents (.nanLog :: l) = saveEvents l := rfl

@[simp] theorem saveEvents_cons_meterUpdate (l : List Event) :
    saveEvents (.meterUpdate :: l) = saveEvents l := rfl

@[simp] theorem saveEvents_cons_backward (l : List Event) :
    saveEvents (.backward :: l) = saveEvents l := rfl

@[simp] theorem saveEvents_cons_avgGrad (l : List Event) :
    saveEvents (.avgGrad :: l) = saveEvents l := rfl

@[simp] theorem saveEvents_cons_optStep (l : List Event) :
    saveEvents (.optStep :: l) = saveEvents l := rfl

@[simp] theorem saveEvents_cons_timeUpdate (l : List Event) :
    saveEvents (.timeUpdate :: l) = saveEvents l := rfl

@[simp] theorem saveEvents_cons_logLine (l : List Event) :
    saveEvents (.logLine :: l) = saveEvents l := rfl

@[simp] theorem saveEvents_cons_saveAttempt (t : String) (b : Bool) (l : List Event) :
    saveEvents (.saveAttempt t b :: l) = (t, b) :: saveEvents l := rfl

/-- Intermediate checkpoint tags are never the final tag (their length is
at least 13 while `"model_final"` has length 11). -/
theorem intermediateTag_ne_final (i : Nat) : intermediateTag i ≠ "model_final" := by
  intro h
  have hlen := congrArg String.length h
  unfold intermediateTag at hlen
  rw [String.length_append, String.length_append] at hlen
  have h1 : ("model_" : String).length = 6 := rfl
  have h2 : (String.mk (List.replicate (7 - (toString i).length)
      (Char.ofNat 48))).length = 7 - (toString i).length := by
    show (List.replicate (7 - (toString i).length) (Char.ofNat 48)).length = _
    exact List.length_replicate _ _
  have h3 : ("model_final" : String).length = 11 := rfl
  rw [h1, h2, h3] at hlen
  omega

/-- The rank-suffixed forced final tag is never the plain final tag. -/
theorem finalRankTag_ne_final (r : Nat) : finalRankTag r ≠ "model_final" := by
  intro h
  have hlen := congrArg String.length h
  unfold finalRankTag at hlen
  rw [String.length_append] at hlen
  have h1 : ("model_final_" : String).length = 12 := rfl
  have h3 : ("model_final" : String).length = 11 := rfl
  rw [h1, h3] at hlen
  omega

/-- A non-diverging, rank-uniform forward/backward invocation leaves the
RunState untouched, raises nothing, and only updates the meters (plus the
backward pass when updates are on). -/
theorem fb_ok {α σ τ : Type} (modelFn : ImageList α σ → List τ → LossDict)
    (saveOk : String → Bool) (cfg : LoopConfig) (images : ImageList α σ)
    (targets : List τ) (args : Arguments α σ τ)
    (hnan : (totalLoss (modelFn images targets)
      (1 / (cfg.data_partition : ℚ))).neSelf = false)
    (hdims : localDimsOk (modelFn images targets) = true) :
    forward_backward modelFn saveOk cfg images targets args
      = ⟨args, .meterUpdate :: (if cfg.no_update then [] else [.backward]), none⟩ := by
  unfold forward_backward
  rw [if_neg (by rw [hnan]; simp), if_neg (by rw [hdims]; simp)]

/-- Under the same hypotheses the whole partitioned sequence raises
nothing, keeps the RunState, and attempts no save. -/
theorem runGroups_ok {α σ τ : Type} (modelFn : ImageList α σ → List τ → LossDict)
    (saveOk : String → Bool) (cfg : LoopConfig)
    (hnan : ∀ (i : ImageList α σ) (t : List τ),
      (totalLoss (modelFn i t) (1 / (cfg.data_partition : ℚ))).neSelf = false)
    (hdims : ∀ (i : ImageList α σ) (t : List τ), localDimsOk (modelFn i t) = true) :
    ∀ (gs : List (ImageList α σ × List τ)) (args : Arguments α σ τ),
      (runGroups modelFn saveOk cfg gs args).err = none ∧
      (runGroups modelFn saveOk cfg gs args).args = args ∧
      saveEvents (runGroups modelFn saveOk cfg gs args).events = []
  | [], args => by simp [runGroups]
  | g :: rest, args => by
    have hfb := fb_ok modelFn saveOk cfg g.1 g.2 args (hnan g.1 g.2) (hdims g.1 g.2)
    obtain ⟨h1, h2, h3⟩ := runGroups_ok modelFn saveOk cfg hnan hdims rest args
    unfold runGroups
    rw [hfb]
    refine ⟨h1, h2, ?_⟩
    cases hnu : cfg.no_update <;> simp [hnu, h3]

/-- One non-empty, non-diverging cycle raises nothing and attempts exactly
the checkpoint-cadence save. -/
theorem runCycle_ok {α σ τ : Type} (modelFn : ImageList α σ → List τ → LossDict)
    (saveOk : String → Bool) (cfg : LoopConfig)
    (hnan : ∀ (i : ImageList α σ) (t : List τ),
      (totalLoss (modelFn i t) (1 / (cfg.data_partition : ℚ))).neSelf = false)
    (hdims : ∀ (i : ImageList α σ) (t : List τ), localDimsOk (modelFn i t) = true)
    (max_iter start_iter it : Nat) (images : ImageList α σ) (targets : List τ)
    (args : Arguments α σ τ) (hne : images.image_sizes.length ≠ 0) :
    (runCycle modelFn saveOk cfg max_iter start_iter it images targets args).err = none ∧
    saveEvents (runCycle modelFn saveOk cfg max_iter start_iter it images targets args).events
      = (if (it + 1) % cfg.checkpoint_period = 0 then
          [(intermediateTag (it + 1), saveOk (intermediateTag (it + 1)))] else []) := by
  unfold runCycle
  rw [if_neg hne]
  obtain ⟨h1, h2, h3⟩ := runGroups_ok modelFn saveOk cfg hnan hdims
    (partition_data images targets cfg.data_partition) { args with iteration := it + 1 }
  simp only [h1]
  refine ⟨by trivial, ?_⟩
  simp [h3, apply_ite saveEvents]

/-- Characterization of the loop trace: with no divergence, uniform ranks
and no empty batch, the save attempts are exactly the cadence saves on the
iterations numbered after `it`, followed by the final-save tail, and the
final outcome is the final-save outcome. -/
theorem runLoop_char {α σ τ : Type} (modelFn : ImageList α σ → List τ → LossDict)
    (saveOk : String → Bool) (cfg : LoopConfig)
    (hnan : ∀ (i : ImageList α σ) (t : List τ),
      (totalLoss (modelFn i t) (1 / (cfg.data_partition : ℚ))).neSelf = false)
    (hdims : ∀ (i : ImageList α σ) (t : List τ), localDimsOk (modelFn i t) = true)
    (max_iter start_iter : Nat) :
    ∀ (l : List (ImageList α σ × List τ)) (it : Nat) (args : Arguments α σ τ),
      (∀ b ∈ l, b.1.image_sizes.length ≠ 0) →
      saveEvents (runLoop modelFn saveOk cfg max_iter start_iter l it args).events
        = ((List.range' (it + 1) l.length).filter
              (fun i => i % cfg.checkpoint_period = 0)).map
            (fun i => (intermediateTag i, saveOk (intermediateTag i)))
          ++ saveEvents (finalTailEvents saveOk cfg) ∧
      (runLoop modelFn saveOk cfg max_iter start_iter l it args).err
        = finalTailErr saveOk cfg
  | [], it, args, _ => by simp [runLoop, finalSaves]
  | b :: rest, it, args, hne => by
    obtain ⟨hc1, hc2⟩ := runCycle_ok modelFn saveOk cfg hnan hdims
      max_iter start_iter it b.1 b.2 args (hne b (List.mem_cons_self ..))
    obtain ⟨hr1, hr2⟩ := runLoop_char modelFn saveOk cfg hnan hdims
      max_iter start_iter rest (it + 1)
      (runCycle modelFn saveOk cfg max_iter start_iter it b.1 b.2 args).args
      (fun x hx => hne x (List.mem_cons_of_mem _ hx))
    unfold runLoop
    simp only [hc1]
    refine ⟨?_, hr2⟩
    rw [saveEvents_append, hc2, hr1, List.length_cons, List.range'_succ]
    simp only [List.filter_cons, apply_ite (List.map
      (fun i => (intermediateTag i, saveOk (intermediateTag i)))), decide_eq_true_eq]
    split_ifs <;> simp

/-- C2: with checkpoint period `P` and a fresh run over `M` batches,
intermediate checkpoint attempts happen exactly at iterations `P, 2P, …`
up to `M`, each best-effort (the trace and outcome hold for every save
oracle, so an intermediate failure never halts the run); on termination
exactly one additional `"model_final"` save is attempted, and its failure
propagates as the fatal outcome of the run. -/
theorem C2_checkpoint_cadence {α σ τ : Type}
    (modelFn : ImageList α σ → List τ → LossDict) (saveOk : String → Bool)
    (cfg : LoopConfig) (data_loader : List (ImageList α σ × List τ))
    (args0 : Arguments α σ τ)
    (_hP : 0 < cfg.checkpoint_period)
    (hstart : args0.iteration = 0)
    (hne : ∀ b ∈ data_loader, b.1.image_sizes.length ≠ 0)
    (hnan : ∀ (i : ImageList α σ) (t : List τ),
      (totalLoss (modelFn i t) (1 / (cfg.data_partition : ℚ))).neSelf = false)
    (hdims : ∀ (i : ImageList α σ) (t : List τ), localDimsOk (modelFn i t) = true) :
    saveEvents (do_train modelFn saveOk cfg data_loader args0).events
      = ((List.range' 1 data_loader.length).filter
            (fun i => i % cfg.checkpoint_period = 0)).map
          (fun i => (intermediateTag i, saveOk (intermediateTag i)))
        ++ saveEvents (finalTailEvents saveOk cfg) ∧
    (saveEvents (do_train modelFn saveOk cfg data_loader args0).events).countP
        (fun p => p.1 = "model_final") = 1 ∧
    (saveOk "model_final" = false →
      (do_train modelFn saveOk cfg data_loader args0).err
        = some (.saveFailed "model_final")) ∧
    (saveOk "model_final" = true → cfg.rank = 0 →
      (do_train modelFn saveOk cfg data_loader args0).err = none) := by
  obtain ⟨ha, hb⟩ := runLoop_char modelFn saveOk cfg hnan hdims
    data_loader.length args0.iteration data_loader args0.iteration args0 hne
  rw [hstart] at ha hb
  have ha' : saveEvents (do_train modelFn saveOk cfg data_loader args0).events
      = ((List.range' 1 data_loader.length).filter
            (fun i => i % cfg.checkpoint_period = 0)).map
          (fun i => (intermediateTag i, saveOk (intermediateTag i)))
        ++ saveEvents (finalTailEvents saveOk cfg) := by
    unfold do_train
    rw [hstart]
    simpa using ha
  have hb' : (do_train modelFn saveOk cfg data_loader args0).err
      = finalTailErr saveOk cfg := by
    unfold do_train
    rw [hstart]
    simpa using hb
  refine ⟨ha', ?_, ?_, ?_⟩
  · rw [ha', List.countP_append]
    have hz : (((List.range' 1 data_loader.length).filter
          (fun i => i % cfg.checkpoint_period = 0)).map
        (fun i => (intermediateTag i, saveOk (intermediateTag i)))).countP
          (fun p => p.1 = "model_final") = 0 := by
      rw [List.countP_eq_zero]
      intro p hp
      obtain ⟨i, _, hpi⟩ := List.mem_map.mp hp
      subst hpi
      simp [intermediateTag_ne_final i]
    rw [hz]
    unfold finalTailEvents
    split_ifs <;> simp [finalRankTag_ne_final]
  · intro hfail
    rw [hb']
    unfold finalTailErr
    rw [if_neg (by rw [hfail]; simp)]
  · intro hok hrank
    rw [hb']
    unfold finalTailErr
    rw [if_pos hok, if_pos hrank]

/-- C2 witness: a fresh four-batch run with period 2 — cadence saves at
iterations 2 and 4 and one final save. -/
theorem C2_checkpoint_cadence_witness :
    saveEvents (do_train
        (fun (_ : ImageList Nat Nat) (_ : List Nat) => [("loss", ⟨0, .num 1⟩)])
        (fun _ => true) { checkpoint_period := 2 }
        [(⟨[0], [0]⟩, [0]), (⟨[1], [1]⟩, [1]), (⟨[2], [2]⟩, [2]), (⟨[3], [3]⟩, [3])]
        ⟨0, none, none⟩).events
      = [("model_0000002", true), ("model_0000004", true), ("model_final", true)] ∧
    (saveEvents (do_train
        (fun (_ : ImageList Nat Nat) (_ : List Nat) => [("loss", ⟨0, .num 1⟩)])
        (fun _ => true) { checkpoint_period := 2 }
        [(⟨[0], [0]⟩, [0]), (⟨[1], [1]⟩, [1]), (⟨[2], [2]⟩, [2]), (⟨[3], [3]⟩, [3])]
        ⟨0, none, none⟩).events).countP (fun p => p.1 = "model_final") = 1 ∧
    (true = false →
      (do_train
        (fun (_ : ImageList Nat Nat) (_ : List Nat) => [("loss", ⟨0, .num 1⟩)])
        (fun _ => true) { checkpoint_period := 2 }
        [(⟨[0], [0]⟩, [0]), (⟨[1], [1]⟩, [1]), (⟨[2], [2]⟩, [2]), (⟨[3], [3]⟩, [3])]
        ⟨0, none, none⟩).err = some (.saveFailed "model_final")) ∧
    (true = true → (0 : Nat) = 0 →
      (do_train
        (fun (_ : ImageList Nat Nat) (_ : List Nat) => [("loss", ⟨0, .num 1⟩)])
        (fun _ => true) { checkpoint_period := 2 }
        [(⟨[0], [0]⟩, [0]), (⟨[1], [1]⟩, [1]), (⟨[2], [2]⟩, [2]), (⟨[3], [3]⟩, [3])]
        ⟨0, none, none⟩).err = none) :=
  C2_checkpoint_cadence
    (fun (_ : ImageList Nat Nat) (_ : List Nat) => [("loss", ⟨0, .num 1⟩)])
    (fun _ => true) { checkpoint_period := 2 }
    [(⟨[0], [0]⟩, [0]), (⟨[1], [1]⟩, [1]), (⟨[2], [2]⟩, [2]), (⟨[3], [3]⟩, [3])]
    ⟨0, none, none⟩ (by decide) rfl (by decide) (fun _ _ => rfl) (fun _ _ => rfl)

/-- A sorted loss dict is its own key-sorted ordering. -/
theorem sortedItems_of_sorted {d : LossDict}
    (h : List.Sorted (fun a b : String × Tensor => a.1 ≤ b.1) d) :
    sortedItems d = d :=
  List.Sorted.insertionSort_eq h

/-- The folded elementwise sum of equal-length buffers keeps the length. -/
theorem foldl_zipWith_length (L : Nat) :
    ∀ (rest : List (List Tensor)) (acc : List Tensor),
      acc.length = L → (∀ s ∈ rest, s.length = L) →
      (rest.foldl (fun a t => List.zipWith Tensor.add a t) acc).length = L
  | [], acc, hacc, _ => hacc
  | s :: rest, acc, hacc, hrest => by
    rw [List.foldl_cons]
    refine foldl_zipWith_length L rest _ ?_ (fun x hx => hrest x (List.mem_cons_of_mem _ hx))
    rw [List.length_zipWith, hacc, hrest s (List.mem_cons_self ..)]
    simp

/-- The folded elementwise sum of equal-length buffers, read at a valid
position, is the fold of the per-position entries. -/
theorem foldl_zipWith_getD (L i : Nat) (hi : i < L) (junk : Tensor) :
    ∀ (rest : List (List Tensor)) (acc : List Tensor),
      acc.length = L → (∀ s ∈ rest, s.length = L) →
      (rest.foldl (fun a t => List.zipWith Tensor.add a t) acc).getD i junk
        = rest.foldl (fun v w => Tensor.add v (w.getD i junk)) (acc.getD i junk)
  | [], acc, hacc, _ => rfl
  | s :: rest, acc, hacc, hrest => by
    rw [List.foldl_cons, List.foldl_cons]
    have hzlen : (List.zipWith Tensor.add acc s).length = L := by
      rw [List.length_zipWith, hacc, hrest s (List.mem_cons_self ..)]
      simp
    rw [foldl_zipWith_getD L i hi junk rest _ hzlen
      (fun x hx => hrest x (List.mem_cons_of_mem _ hx))]
    have h1 : i < acc.length := by omega
    have h2 : i < s.length := by rw [hrest s (List.mem_cons_self ..)]; exact hi
    congr 1
    simp [List.getD_eq_getElem?_getD, List.getElem?_zipWith,
      List.getElem?_eq_getElem h1, List.getElem?_eq_getElem h2]

/-- Projecting the value out of a fold of tensor additions. -/
theorem foldl_add_val (g : LossDict → Tensor) :
    ∀ (l : List LossDict) (t0 : Tensor),
      (l.foldl (fun v w => Tensor.add v (g w)) t0).val
        = (l.map (fun w => (g w).val)).foldl Val.add t0.val
  | [], _ => rfl
  | w :: l, t0 => by
    rw [List.foldl_cons, List.map_cons, List.foldl_cons, foldl_add_val g l]
    rfl

/-- Reading the stacked values of a sorted dict at a valid position gives
that entry's tensor. -/
theorem stackedVals_getD {w : LossDict}
    (hw : List.Sorted (fun a b : String × Tensor => a.1 ≤ b.1) w)
    (i : Nat) (hi : i < w.length) (junkT : Tensor) :
    (stackedVals w).getD i junkT = (w.getD i ("", junkT)).2 := by
  unfold stackedVals
  rw [sortedItems_of_sorted hw]
  simp [List.getD_eq_getElem?_getD, List.getElem?_map, List.getElem?_eq_getElem hi]

/-- Unfolding of the reduction at the coordinator: the values are the
collective sum of every worker's stacked buffer, divided by the world
size. -/
theorem reduce_at_coordinator (u : Bool) (w0 : LossDict) (ws : List LossDict)
    (hws : ws ≠ [])
    (hs0 : List.Sorted (fun a b : String × Tensor => a.1 ≤ b.1) w0)
    (hd0 : localDimsOk w0 = true) :
    reduce_loss_dict u (w0 :: ws) 0
      = .ok (List.zip (w0.map Prod.fst)
          ((sumStacks ((w0 :: ws).map stackedVals)).map
            (fun t => t.divNat (w0 :: ws).length))) := by
  have hlen2 : ¬ ((w0 :: ws).length < 2) := by
    have := List.length_pos.mpr hws
    simp only [List.length_cons]
    omega
  unfold reduce_loss_dict
  rw [if_neg hlen2]
  simp only [List.getD_cons_zero, sortedItems_of_sorted hs0, hd0, if_true]
  cases u <;> simp

/-- C5: with more than one worker, the coordinator's reduced value for
each key is the workers' values for that key summed and divided by the
worker count (their arithmetic mean), and only the coordinator divides:
with the standard backend every other rank's result is its local mapping,
unchanged. -/
theorem C5_reduce_mean (u : Bool) (world : List LossDict)
    (hN : 2 ≤ world.length)
    (hsorted : ∀ w ∈ world, List.Sorted (fun a b : String × Tensor => a.1 ≤ b.1) w)
    (hkeys : ∀ w ∈ world, w.map Prod.fst = (world.getD 0 []).map Prod.fst)
    (hdims : ∀ w ∈ world, localDimsOk w = true) :
    (∃ r, reduce_loss_dict u world 0 = .ok r ∧
      r.map Prod.fst = (world.getD 0 []).map Prod.fst ∧
      ∀ i, i < (world.getD 0 []).length →
        ∃ t : Tensor,
          r[i]? = some (((world.getD 0 []).map Prod.fst).getD i "", t) ∧
          t.val = (valSumList (world.map
              (fun w => (w.getD i ("", ⟨0, .num 0⟩)).2.val))).divNat world.length) ∧
    (∀ rk, rk ≠ 0 → rk < world.length →
      reduce_loss_dict false world rk = .ok (world.getD rk [])) := by
  constructor
  · obtain ⟨w0, ws, rfl⟩ : ∃ w0 ws, world = w0 :: ws := by
      cases world with
      | nil => simp at hN
      | cons a l => exact ⟨a, l, rfl⟩
    have hws : ws ≠ [] := by
      intro h
      rw [h] at hN
      simp at hN
    have hs0 := hsorted w0 (List.mem_cons_self ..)
    have hd0 := hdims w0 (List.mem_cons_self ..)
    have hred := reduce_at_coordinator u w0 ws hws hs0 hd0
    simp only [List.getD_cons_zero] at hkeys ⊢
    have hlenw : ∀ w ∈ w0 :: ws, w.length = w0.length := by
      intro w hw
      have h := congrArg List.length (hkeys w hw)
      simpa using h
    have hstlen : ∀ w ∈ w0 :: ws, (stackedVals w).length = w0.length := by
      intro w hw
      show ((sortedItems w).map _).length = _
      rw [List.length_map]
      unfold sortedItems
      rw [List.length_insertionSort]
      exact hlenw w hw
    have hsumlen : (sumStacks ((w0 :: ws).map stackedVals)).length = w0.length := by
      show ((ws.map stackedVals).foldl (fun a t => List.zipWith Tensor.add a t)
        (stackedVals w0)).length = w0.length
      refine foldl_zipWith_length w0.length _ _ (hstlen w0 (List.mem_cons_self ..)) ?_
      intro s hs
      obtain ⟨w, hw, rfl⟩ := List.mem_map.mp hs
      exact hstlen w (List.mem_cons_of_mem _ hw)
    refine ⟨_, hred, ?_, ?_⟩
    · refine List.map_fst_zip _ _ ?_
      rw [List.length_map, List.length_map, hsumlen]
    · intro i hi
      have hisum : i < (sumStacks ((w0 :: ws).map stackedVals)).length := by
        rw [hsumlen]; exact hi
      refine ⟨((sumStacks ((w0 :: ws).map stackedVals)).getD i ⟨0, .num 0⟩).divNat
        (w0 :: ws).length, ?_, ?_⟩
      · rw [List.zip_eq_zipWith, List.getElem?_zipWith]
        have himap : i < (w0.map Prod.fst).length := by simpa using hi
        rw [List.getElem?_eq_getElem himap, List.getElem?_map,
          List.getElem?_eq_getElem hisum]
        rw [List.getD_eq_getElem _ _ himap, List.getD_eq_getElem _ _ hisum]
        rfl
      · have hsum : (sumStacks ((w0 :: ws).map stackedVals)).getD i ⟨0, .num 0⟩
            = ws.foldl (fun v w => Tensor.add v ((stackedVals w).getD i ⟨0, .num 0⟩))
                ((stackedVals w0).getD i ⟨0, .num 0⟩) := by
          show ((ws.map stackedVals).foldl (fun a t => List.zipWith Tensor.add a t)
            (stackedVals w0)).getD i ⟨0, .num 0⟩ = _
          rw [foldl_zipWith_getD w0.length i hi ⟨0, .num 0⟩ (ws.map stackedVals)
            (stackedVals w0) (hstlen w0 (List.mem_cons_self ..))
            (fun s hs => by
              obtain ⟨w, hw, rfl⟩ := List.mem_map.mp hs
              exact hstlen w (List.mem_cons_of_mem _ hw))]
          rw [List.foldl_map]
        show (((sumStacks ((w0 :: ws).map stackedVals)).getD i
          ⟨0, .num 0⟩).val).divNat (w0 :: ws).length = _
        rw [hsum, foldl_add_val (fun w => (stackedVals w).getD i ⟨0, .num 0⟩) ws]
        rw [stackedVals_getD hs0 i hi]
        rw [List.map_congr_left (fun w hw => congrArg Tensor.val
          (stackedVals_getD (hsorted w (List.mem_cons_of_mem _ hw)) i
            (by rw [hlenw w (List.mem_cons_of_mem _ hw)]; exact hi) ⟨0, .num 0⟩))]
        rfl
  · intro rk hrk hlt
    have hmem : world.getD rk [] ∈ world := by
      have h : world[rk]? = some (world.getD rk []) := by
        rw [List.getElem?_eq_getElem hlt, List.getD_eq_getElem _ _ hlt]
      exact List.getElem?_mem h
    have hsr := hsorted _ hmem
    have hdr := hdims _ hmem
    unfold reduce_loss_dict
    rw [if_neg (by omega)]
    simp only [sortedItems_of_sorted hsr, hdr, if_true]
    rw [if_neg hrk, if_neg hrk]
    simp [List.zip_map']

/-- C5 witness: two workers with a single loss component valued 1 and 5 —
the coordinator obtains the mean 3, rank 1 keeps its local mapping. -/
theorem C5_reduce_mean_witness :
    (∃ r, reduce_loss_dict false
        [[("a", ⟨0, .num 1⟩)], [("a", ⟨0, .num 5⟩)]] 0 = .ok r ∧
      r.map Prod.fst = ([("a", (⟨0, .num 1⟩ : Tensor))]).map Prod.fst ∧
      ∀ i, i < ([("a", (⟨0, .num 1⟩ : Tensor))]).length →
        ∃ t : Tensor,
          r[i]? = some ((([("a", (⟨0, .num 1⟩ : Tensor))]).map Prod.fst).getD i "", t) ∧
          t.val = (valSumList
              (([[("a", (⟨0, .num 1⟩ : Tensor))], [("a", ⟨0, .num 5⟩)]]).map
                (fun w => (w.getD i ("", ⟨0, .num 0⟩)).2.val))).divNat 2) ∧
    (∀ rk, rk ≠ 0 → rk < 2 →
      reduce_loss_dict false [[("a", ⟨0, .num 1⟩)], [("a", ⟨0, .num 5⟩)]] rk
        = .ok (([[("a", (⟨0, .num 1⟩ : Tensor))], [("a", ⟨0, .num 5⟩)]]).getD rk [])) :=
  C5_reduce_mean false [[("a", ⟨0, .num 1⟩)], [("a", ⟨0, .num 5⟩)]]
    (by decide) (by decide) (by decide) (by decide)

end Trainer
